import Mathlib

/-!
# Verification of the taskgraph coordination core

Shallow embedding of the taskgraph framework (`framework/bootstrap.go`,
`store/s3.go`, `task_interface.go`) together with theorems checking the
natural-language specification against it.

The embedding follows the Go source: etcd responses and errors become
inductive types, the per-neighbor watch goroutine of `watchAll` becomes a
pure function from the baseline read and the stream of watch events to the
list of metadata values handed to the task callback, `occupyTask` becomes a
recursion over the listed task-directory entries, and the epoch phase of
`Start` becomes an event trace.
-/

namespace Taskgraph

/-! ## etcd client model

`framework/bootstrap.go` talks to etcd through `f.etcdClient.Get` and
`f.etcdClient.Watch`.  A successful `Get`/watch event carries the node value
(`resp.Node.Value`), the action (`resp.Action`) and the store's change index
(`resp.EtcdIndex`).  A failed call carries an error that is either
"key not found" (recognised by `etcdutil.IsKeyNotFound`) or anything else. -/

/-- An etcd response as used by `watchAll`: `resp.Action`, `resp.Node.Value`
and `resp.EtcdIndex` from the Go etcd client. -/
structure EtcdResp where
  action : String
  value : String
  etcdIndex : Nat
  deriving DecidableEq, Repr

/-- An etcd client error: either "key not found" or any other store error. -/
inductive EtcdErr
  | keyNotFound
  | other (msg : String)
  deriving DecidableEq, Repr

/-- `etcdutil.IsKeyNotFound` on the error of a failed `Get`. -/
def IsKeyNotFound : EtcdErr → Bool
  | .keyNotFound => true
  | .other _ => false

/-! ## watchAll: per-neighbor baseline read and watch registration

For each neighbor, `watchAll` (bootstrap.go:158-171) performs a baseline
`Get(watchPath)`, then decides the index the watch starts from and whether a
baseline value will be delivered:

```go
var watchIndex uint64 // for "key not found"
resp, err := f.etcdClient.Get(watchPath, false, false)
if err != nil {
    if !etcdutil.IsKeyNotFound(err) {
        f.log.Fatalf("etcd get(%s) failed: %v", watchPath, err)
    } else {
        watchIndex = 1
    }
} else {
    watchIndex = resp.EtcdIndex + 1
}
go f.etcdClient.Watch(watchPath, watchIndex, false, receiver, stop)
```
-/

/-- Outcome of the baseline read: either the node dies (`log.Fatalf`), or the
watch is registered at `watchIndex` with an optional baseline response. -/
inductive BaselineOutcome
  | fatal (msg : String)
  | proceed (watchIndex : Nat) (baseline : Option EtcdResp)
  deriving DecidableEq, Repr

/-- The baseline-read logic of `watchAll` (bootstrap.go:158-171): from the
result of `Get(watchPath)` compute whether the node dies and, if not, the
index the watch starts from and the baseline response kept for delivery. -/
def setupWatch (watchPath : String) (got : Except EtcdErr EtcdResp) : BaselineOutcome :=
  match got with
  | .error err =>
    if !(IsKeyNotFound err) then
      .fatal ("etcd get(" ++ watchPath ++ ") failed")
    else
      .proceed 1 none
  | .ok resp => .proceed (resp.etcdIndex + 1) (some resp)

/-! ## watchAll: the per-neighbor delivery goroutine

bootstrap.go:172-184: the goroutine first delivers the baseline value (when
the baseline read returned a response), then loops over the receiver channel,
skipping every event whose action is not `"set"` and handing the value of
every `"set"` event to the task callback
(`ParentMetaReady`/`ChildMetaReady`):

```go
go func(receiver <-chan *etcd.Response, taskID uint64) {
    if resp != nil {
        taskCallback(taskID, resp.Node.Value)
    }
    for resp := range receiver {
        if resp.Action != "set" {
            continue
        }
        taskCallback(taskID, resp.Node.Value)
    }
}(receiver, taskID)
```
-/

/-- The `for resp := range receiver` loop: values handed to the task
callback, given the list of events arriving on the receiver channel. -/
def deliverLoop : List EtcdResp → List String
  | [] => []
  | resp :: rest =>
    if resp.action ≠ "set" then deliverLoop rest
    else resp.value :: deliverLoop rest

/-- The whole per-neighbor delivery goroutine of `watchAll`: the baseline
value (if a baseline response exists) followed by the values delivered from
the event stream. -/
def watchDeliveries (baseline : Option EtcdResp) (events : List EtcdResp) : List String :=
  match baseline with
  | some resp => resp.value :: deliverLoop events
  | none => deliverLoop events

/-! ## Theorems: claims C3, C7, C6, C1 -/

/-- The watch index chosen by a `proceed` outcome (`0` is never used by
`proceed`: the code assigns `1` or `EtcdIndex + 1`). -/
def BaselineOutcome.watchIndexOf : BaselineOutcome → Option Nat
  | .fatal _ => none
  | .proceed i _ => some i

/-- **C3.** For every neighbor watch set up by `watchAll`: if the baseline
read finds the key absent, the watch starts from index 1; if the baseline
read succeeds, the watch starts from the store's returned change index plus
one. -/
theorem watch_start_index (watchPath : String) :
    (setupWatch watchPath (.error .keyNotFound) = .proceed 1 none) ∧
    (∀ resp : EtcdResp,
      setupWatch watchPath (.ok resp) = .proceed (resp.etcdIndex + 1) (some resp)) := by
  constructor
  · rfl
  · intro resp
    rfl

/-- **C7.** During the baseline read of a neighbor's metadata key, any store
error other than "key not found" terminates the node fatally; a
"key not found" error is not fatal and is treated as absence of a baseline. -/
theorem baseline_error_policy (watchPath : String) :
    (∀ msg : String, setupWatch watchPath (.error (.other msg)) =
        .fatal ("etcd get(" ++ watchPath ++ ") failed")) ∧
    (setupWatch watchPath (.error .keyNotFound) = .proceed 1 none) := by
  constructor
  · intro msg
    rfl
  · rfl

/-- `deliverLoop` keeps exactly the `"set"` events, in order, and delivers
their values. -/
theorem deliverLoop_eq_filter (events : List EtcdResp) :
    deliverLoop events =
      (events.filter (fun r => r.action = "set")).map (fun r => r.value) := by
  induction events with
  | nil => rfl
  | cons resp rest ih =>
    by_cases h : resp.action = "set"
    · simp [deliverLoop, h, ih]
    · simp [deliverLoop, h, ih]

/-- **C6.** For every neighbor watch: if a baseline value was read, it is
delivered to the task before any watch event for that neighbor; after that,
exactly the watch events whose action is `"set"` are delivered, and events of
every other action kind are skipped. -/
theorem baseline_first_then_sets (baseline : Option EtcdResp) (events : List EtcdResp) :
    watchDeliveries baseline events =
      (baseline.map (fun r => r.value)).toList ++
        (events.filter (fun r => r.action = "set")).map (fun r => r.value) := by
  cases baseline with
  | none => simpa [watchDeliveries] using deliverLoop_eq_filter events
  | some resp => simpa [watchDeliveries] using deliverLoop_eq_filter events

/-! ## occupyTask: slot acquisition (bootstrap.go:110-129)

```go
func (f *framework) occupyTask() (uint64, error) {
    slots, err := f.etcdClient.Get(etcdutil.MakeTaskDirPath(f.name), true, true)
    if err != nil {
        return 0, err
    }
    for _, s := range slots.Node.Nodes {
        idstr := path.Base(s.Key)
        id, err := strconv.ParseUint(idstr, 0, 64)
        if err != nil {
            f.log.Printf("WARN: taskID isn't integer, registration on etcd has been corrupted!")
            continue
        }
        ok := etcdutil.TryOccupyTask(f.etcdClient, f.name, id, f.ln.Addr().String())
        if ok {
            return id, nil
        }
    }
    return 0, fmt.Errorf("no unassigned task found")
}
```

The two Go library calls are modelled after their documented behavior:
`path.Base` and `strconv.ParseUint(idstr, 0, 64)` (base 0: `0b`/`0o`/`0x`
prefixes, a bare leading `0` meaning octal, underscores between digits,
values bounded by `2^64 - 1`; every error outcome is `none`). -/

/-- Go `lower(c) = c | ('x' - 'X')`: lower-case an ASCII letter. -/
def lowerCh (c : Char) : Char := Char.ofNat (c.toNat ||| 32)

/-- Go `path.Base`: last element of the path after trailing slashes are
removed; `"."` for the empty path, `"/"` for an all-slash path. -/
def pathBase (p : String) : String :=
  if p = "" then "."
  else
    let cs := (p.toList.reverse.dropWhile (fun c => c = '/')).reverse
    let base := (cs.reverse.takeWhile (fun c => c ≠ '/')).reverse
    if base = [] then "/" else String.mk base

/-- Digit value of a character as in Go `strconv.ParseUint`: `'0'..'9'`,
then `'a'..'z'` (after lower-casing) as 10..35. -/
def digitVal (c : Char) : Option Nat :=
  if '0' ≤ c ∧ c ≤ '9' then some (c.toNat - '0'.toNat)
  else if 'a' ≤ lowerCh c ∧ lowerCh c ≤ 'z' then some ((lowerCh c).toNat - 'a'.toNat + 10)
  else none

/-- The per-character loop of Go `underscoreOK`: `saw` is `'^'` at start,
`'0'` after a digit or base prefix, `'_'` after an underscore, `'!'` after
anything else; underscores are legal only between digits. -/
def underscoreLoop (hex : Bool) : List Char → Char → Bool
  | [], saw => saw ≠ '_'
  | c :: rest, saw =>
    if ('0' ≤ c ∧ c ≤ '9') ∨ (hex ∧ 'a' ≤ lowerCh c ∧ lowerCh c ≤ 'f') then
      underscoreLoop hex rest '0'
    else if c = '_' then
      if saw ≠ '0' then false else underscoreLoop hex rest '_'
    else if saw = '_' then false
    else underscoreLoop hex rest '!'

/-- Go `strconv.underscoreOK(s0)`: underscores may appear only between the
base prefix and a digit or between two digits. -/
def underscoreOK (s : List Char) : Bool :=
  let s1 := match s with
    | '-' :: rest => rest
    | '+' :: rest => rest
    | _ => s
  match s1 with
  | '0' :: c :: rest =>
    if lowerCh c = 'b' ∨ lowerCh c = 'o' ∨ lowerCh c = 'x' then
      underscoreLoop (lowerCh c = 'x') rest '0'
    else
      underscoreLoop false s1 '^'
  | _ => underscoreLoop false s1 '^'

/-- The digit-accumulation loop of Go `strconv.ParseUint`: `base0` permits
underscores, any digit invalid for the base is a syntax error, and a value
above `maxVal` is a range error (both errors are `none`); on success returns
the value and whether underscores were seen. -/
def parseDigits (base maxVal : Nat) : List Char → Nat → Bool → Option (Nat × Bool)
  | [], n, us => some (n, us)
  | c :: rest, n, us =>
    if c = '_' then parseDigits base maxVal rest n true
    else
      match digitVal c with
      | none => none
      | some d =>
        if base ≤ d then none
        else
          let n1 := n * base + d
          if maxVal < n1 then none
          else parseDigits base maxVal rest n1 us

/-- Go `strconv.ParseUint(s, 0, 64)` returning `some value` on success and
`none` on any syntax or range error: base 0 resolves `0b`/`0o`/`0x`
prefixes, a remaining leading `0` means octal, otherwise decimal. -/
def parseUint0 (s : String) : Option Nat :=
  let cs := s.toList
  if cs = [] then none
  else
    let p : Nat × List Char :=
      match cs with
      | '0' :: c :: rest =>
        if lowerCh c = 'b' ∧ rest ≠ [] then (2, rest)
        else if lowerCh c = 'o' ∧ rest ≠ [] then (8, rest)
        else if lowerCh c = 'x' ∧ rest ≠ [] then (16, rest)
        else (8, c :: rest)
      | ['0'] => (8, [])
      | _ => (10, cs)
    match parseDigits p.1 (2 ^ 64 - 1) p.2 0 false with
    | none => none
    | some (n, us) => if us ∧ ¬ underscoreOK cs then none else some n

/-- The warning `occupyTask` logs for a non-numeric task-directory entry. -/
def occupyWarn : String := "WARN: taskID isn't integer, registration on etcd has been corrupted!"

/-- The `for _, s := range slots.Node.Nodes` loop of `occupyTask` over the
listed entry keys.  `claimOk id` is the outcome of
`etcdutil.TryOccupyTask(f.etcdClient, f.name, id, addr)` — the atomic
conditional claim of slot `id` at the store (the helper lives outside the
core; its result is a parameter here).  Returns the Go return value
(`(id, nil)` as `.ok id`, `(0, err)` as `.error`) together with the warnings
logged along the way. -/
def occupyTaskLoop (claimOk : Nat → Bool) : List String → Except String Nat × List String
  | [] => (.error "no unassigned task found", [])
  | key :: rest =>
    match parseUint0 (pathBase key) with
    | none =>
      let r := occupyTaskLoop claimOk rest
      (r.1, occupyWarn :: r.2)
    | some id =>
      if claimOk id then (.ok id, [])
      else occupyTaskLoop claimOk rest

/-- `occupyTask` (bootstrap.go:110-129): a failed directory `Get` returns the
error unchanged (`return 0, err`); otherwise the loop over the listed entry
keys runs. -/
def occupyTask (slots : Except EtcdErr (List String)) (claimOk : Nat → Bool) :
    Except String Nat × List String :=
  match slots with
  | .error _ => (.error "etcd get of task dir failed", [])
  | .ok keys => occupyTaskLoop claimOk keys

/-- Specification-side reading of claim C5: the first entry, in listed
order, whose key parses as a numeric ID and whose atomic claim succeeds. -/
def firstClaimed (claimOk : Nat → Bool) (keys : List String) : Option Nat :=
  keys.findSome? fun key =>
    match parseUint0 (pathBase key) with
    | none => none
    | some id => if claimOk id then some id else none

/-- **C5.** `occupyTask` attempts an atomic conditional claim on the listed
slot entries in listed order and returns the ID of the first successful
claim; if no claim succeeds on any entry, it returns a "no unassigned task"
error and no ID. -/
theorem occupy_first_claim (claimOk : Nat → Bool) (keys : List String) :
    (occupyTask (.ok keys) claimOk).1 =
      match firstClaimed claimOk keys with
      | some id => .ok id
      | none => .error "no unassigned task found" := by
  induction keys with
  | nil => rfl
  | cons key rest ih =>
    simp only [occupyTask, firstClaimed, List.findSome?] at *
    cases hp : parseUint0 (pathBase key) with
    | none => simpa [occupyTaskLoop, hp] using ih
    | some id =>
      by_cases hc : claimOk id
      · simp [occupyTaskLoop, hp, hc]
      · simpa [occupyTaskLoop, hp, hc] using ih

/-- **C8.** A task-directory entry whose key does not parse as a numeric ID
makes `occupyTask` log the corruption warning and skip the entry, continuing
with the remaining entries; such an entry never changes the returned value,
so by itself it causes no error return (and no node termination). -/
theorem nonnumeric_entry_skipped (claimOk : Nat → Bool) (key : String)
    (pre post : List String) (h : parseUint0 (pathBase key) = none) :
    occupyTaskLoop claimOk (key :: post) =
      ((occupyTaskLoop claimOk post).1, occupyWarn :: (occupyTaskLoop claimOk post).2) ∧
    (occupyTask (.ok (pre ++ key :: post)) claimOk).1 =
      (occupyTask (.ok (pre ++ post)) claimOk).1 := by
  constructor
  · simp [occupyTaskLoop, h]
  · simp only [occupyTask]
    induction pre with
    | nil => simp [occupyTaskLoop, h]
    | cons a pre ih =>
      simp only [List.cons_append]
      cases hp : parseUint0 (pathBase a) with
      | none => simp [occupyTaskLoop, hp, ih]
      | some id =>
        by_cases hc : claimOk id
        · simp [occupyTaskLoop, hp, hc]
        · simp [occupyTaskLoop, hp, hc, ih]

/-- Witness for C8 at a concrete listing: `"/job/tasks/abc"` is not numeric,
is skipped with a warning, and does not change the result of the scan over
`["/job/tasks/0", "/job/tasks/1"]` with slot 1 free. -/
theorem nonnumeric_entry_skipped_witness :
    parseUint0 (pathBase "/job/tasks/abc") = none ∧
    (occupyTaskLoop (fun id => id == 1) ("/job/tasks/abc" :: ["/job/tasks/1"]) =
      ((occupyTaskLoop (fun id => id == 1) ["/job/tasks/1"]).1,
        occupyWarn :: (occupyTaskLoop (fun id => id == 1) ["/job/tasks/1"]).2) ∧
     (occupyTask (.ok (["/job/tasks/0"] ++ "/job/tasks/abc" :: ["/job/tasks/1"]))
        (fun id => id == 1)).1 =
      (occupyTask (.ok (["/job/tasks/0"] ++ ["/job/tasks/1"])) (fun id => id == 1)).1) :=
  ⟨by decide,
   nonnumeric_entry_skipped (fun id => id == 1) "/job/tasks/abc"
     ["/job/tasks/0"] ["/job/tasks/1"] (by decide)⟩

/-- **C1 (failing input).** Writing the same bytes `"ready"` to a neighbor's
metadata key twice produces two `"set"` watch events with the same value, and
the delivery goroutine hands the value to the task callback twice — the code
does not deduplicate, contradicting the at-most-once-per-value contract
documented on the `Task` interface (task_interface.go:19-22). -/
theorem duplicate_set_delivered_twice :
    (watchDeliveries none
        [⟨"set", "ready", 5⟩, ⟨"set", "ready", 6⟩]).count "ready" = 2 := by
  rfl

/-! ## Start: the bootstrap sequence as an event trace (bootstrap.go:40-93)

The main goroutine of `Start` performs, in program order: `occupyTask`,
`taskBuilder.GetTask`/`topology.SetTaskID`, `task.Init`, creation of the
epoch channel with `make(chan uint64, 1)` and `GetAndWatchEpoch`,
`go heartbeat()`, `go detectAndReportFailures()`, `watchAll(roleParent, …)`,
`watchAll(roleChild, …)`, `go startHTTP()`, `go dataResponseReceiver()`,
then `task.SetEpoch(f.epoch)` followed by
`for f.epoch = range f.epochChan { f.task.SetEpoch(f.epoch) }`.

A run of the node is a trace of events.  The per-neighbor goroutines spawned
inside `watchAll` invoke `ParentMetaReady`/`ChildMetaReady` concurrently
with the rest of the trace, but never before the `watchAll` call that
spawned them; every other event happens on the main goroutine in program
order. -/

/-- Which `watchAll` call spawned a watcher: `watchAll(roleParent, parents)`
registers the watchers whose callback is `ParentMetaReady`,
`watchAll(roleChild, children)` those whose callback is `ChildMetaReady`. -/
inductive Role
  | parent
  | child
  deriving DecidableEq, Repr

/-- Observable events of a run of `Start`. -/
inductive Ev
  | acquireSlot
  | taskInit
  | epochFetch
  | heartbeatStart
  | failureDetectStart
  | watchEstablish (r : Role)
  | serverStart
  | dataReceiverStart
  | setEpoch (e : Nat)
  | metaReady (r : Role) (neighbor : Nat) (meta : String)
  deriving DecidableEq, Repr

/-- Is the event a metadata callback (`ParentMetaReady`/`ChildMetaReady`)? -/
def isMetaEv : Ev → Bool
  | .metaReady _ _ _ => true
  | _ => false

/-- The main-goroutine events of `Start` in program order, for a run whose
initial epoch is `e0` and whose epoch channel yields `es`. -/
def mainTrace (e0 : Nat) (es : List Nat) : List Ev :=
  [.acquireSlot, .taskInit, .epochFetch, .heartbeatStart, .failureDetectStart,
   .watchEstablish .parent, .watchEstablish .child, .serverStart, .dataReceiverStart,
   .setEpoch e0] ++ es.map .setEpoch

/-- Check that every metadata callback in the trace comes after the
`watchAll` call of its role: `sawP`/`sawC` record whether
`watchAll(roleParent, …)` / `watchAll(roleChild, …)` has already run. -/
def metasGuarded : Bool → Bool → List Ev → Bool
  | _, _, [] => true
  | sawP, sawC, e :: t =>
    match e with
    | .metaReady .parent _ _ => sawP && metasGuarded sawP sawC t
    | .metaReady .child _ _ => sawC && metasGuarded sawP sawC t
    | .watchEstablish .parent => metasGuarded true sawC t
    | .watchEstablish .child => metasGuarded sawP true t
    | _ => metasGuarded sawP sawC t

/-- A possible execution trace of `Start`: erasing the metadata callbacks
(which run on the per-neighbor goroutines spawned in `watchAll`) yields the
main-goroutine order, and every metadata callback of a role occurs after the
`watchAll` call of that role. -/
def ValidStart (e0 : Nat) (es : List Nat) (t : List Ev) : Prop :=
  t.filter (fun e => !isMetaEv e) = mainTrace e0 es ∧
  metasGuarded false false t = true

/-- The capacity of the epoch update channel:
`f.epochChan = make(chan uint64, 1)` (bootstrap.go:67). -/
def epochChanCapacity : Nat := 1

/-- The epoch values handed to `Task.SetEpoch`, in trace order. -/
def setEpochVals (t : List Ev) : List Nat :=
  t.filterMap fun e =>
    match e with
    | .setEpoch n => some n
    | _ => none

/-- Metadata callbacks contribute nothing to `setEpochVals`. -/
theorem setEpochVals_filter (t : List Ev) :
    setEpochVals (t.filter (fun e => !isMetaEv e)) = setEpochVals t := by
  induction t with
  | nil => rfl
  | cons e t ih =>
    cases e <;> simp_all [setEpochVals, isMetaEv, List.filter_cons]

/-- `setEpochVals` recovers the epochs of a block of `setEpoch` events. -/
theorem setEpochVals_map (es : List Nat) : setEpochVals (es.map .setEpoch) = es := by
  induction es with
  | nil => rfl
  | cons e es ih => simpa [setEpochVals] using ih

/-- On every valid trace of `Start`, the `SetEpoch` calls are exactly the
initial epoch followed by the channel values, in order. -/
theorem validStart_setEpochVals (e0 : Nat) (es : List Nat) (t : List Ev)
    (h : ValidStart e0 es t) : setEpochVals t = e0 :: es := by
  obtain ⟨hf, -⟩ := h
  rw [← setEpochVals_filter, hf]
  simpa [mainTrace, setEpochVals] using setEpochVals_map es

/-- A non-meta event heads every trace whose metadata callbacks are guarded
by the not-yet-seen `watchAll` calls. -/
theorem guard_head (a : Ev) (t1 : List Ev)
    (hg : metasGuarded false false (a :: t1) = true) : isMetaEv a = false := by
  cases a with
  | metaReady r n m => cases r <;> simp [metasGuarded] at hg
  | acquireSlot => rfl
  | taskInit => rfl
  | epochFetch => rfl
  | heartbeatStart => rfl
  | failureDetectStart => rfl
  | watchEstablish r => rfl
  | serverStart => rfl
  | dataReceiverStart => rfl
  | setEpoch e => rfl

/-- `taskInit` never occurs among a block of `setEpoch` events. -/
theorem count_taskInit_map (es : List Nat) :
    (es.map Ev.setEpoch).count Ev.taskInit = 0 := by
  induction es with
  | nil => rfl
  | cons e es ih => simp [List.count_cons, ih]

/-- Metadata callbacks contribute nothing to the number of `taskInit`
events. -/
theorem count_taskInit_filter (t : List Ev) :
    t.count Ev.taskInit = (t.filter (fun e => !isMetaEv e)).count Ev.taskInit := by
  induction t with
  | nil => rfl
  | cons e t ih =>
    cases he : isMetaEv e with
    | false =>
      have h1 : List.filter (fun x => !isMetaEv x) (e :: t) =
          e :: List.filter (fun x => !isMetaEv x) t := by
        simp [List.filter_cons, he]
      rw [h1, List.count_cons, List.count_cons, ih]
    | true =>
      have h1 : List.filter (fun x => !isMetaEv x) (e :: t) =
          List.filter (fun x => !isMetaEv x) t := by
        simp [List.filter_cons, he]
      have h2 : Ev.taskInit ≠ e := by
        intro hcontra
        rw [← hcontra] at he
        exact absurd he (by decide)
      rw [h1, List.count_cons_of_ne h2, ih]

/-- **C2.** In `Start`, the initial epoch is delivered to the task via
`Task.SetEpoch` synchronously before the update loop begins; thereafter
every epoch update received on the channel is delivered via `Task.SetEpoch`
in receipt order, with no value dropped; the update channel has capacity
exactly one. -/
theorem initial_epoch_then_updates (e0 : Nat) (es : List Nat) (t : List Ev)
    (h : ValidStart e0 es t) :
    setEpochVals t = e0 :: es ∧ epochChanCapacity = 1 :=
  ⟨validStart_setEpochVals e0 es t h, rfl⟩

/-- Witness for C2 on a concrete run: initial epoch 4, updates 5 then 6. -/
theorem initial_epoch_then_updates_witness :
    ValidStart 4 [5, 6] (mainTrace 4 [5, 6]) ∧
    (setEpochVals (mainTrace 4 [5, 6]) = 4 :: [5, 6] ∧ epochChanCapacity = 1) :=
  ⟨⟨rfl, rfl⟩, initial_epoch_then_updates 4 [5, 6] (mainTrace 4 [5, 6]) ⟨rfl, rfl⟩⟩

/-- Modelled from the spec: `etcdutil.GetAndWatchEpoch` (in `pkg/etcdutil`,
outside the core sources) "fetches the current epoch value and establishes a
watch that pushes every subsequent value onto a single-slot channel", and
the global epoch is "a monotonically non-decreasing unsigned counter", so
the initial value followed by the pushed updates is a non-decreasing
sequence. -/
def EpochSourceMonotone (e0 : Nat) (es : List Nat) : Prop :=
  List.Chain' (· ≤ ·) (e0 :: es)

/-- **C4.** The sequence of epoch values delivered to a task via
`Task.SetEpoch` is monotonically non-decreasing: given that the epoch source
publishes a non-decreasing sequence (the epoch invariant of the store), the
node — which forwards every received value in order and never reorders or
drops — never delivers an epoch value lower than one already delivered. -/
theorem epochs_delivered_monotone (e0 : Nat) (es : List Nat) (t : List Ev)
    (h : ValidStart e0 es t) (hs : EpochSourceMonotone e0 es) :
    List.Chain' (· ≤ ·) (setEpochVals t) := by
  rw [validStart_setEpochVals e0 es t h]
  exact hs

/-- Witness for C4 on a concrete run: epochs 2, 2, 5 are delivered in a
non-decreasing order. -/
theorem epochs_delivered_monotone_witness :
    (ValidStart 2 [2, 5] (mainTrace 2 [2, 5]) ∧ EpochSourceMonotone 2 [2, 5]) ∧
    List.Chain' (· ≤ ·) (setEpochVals (mainTrace 2 [2, 5])) :=
  ⟨⟨⟨rfl, rfl⟩,
    by
      unfold EpochSourceMonotone
      rw [List.chain'_cons, List.chain'_cons]
      exact ⟨by omega, by omega, List.chain'_singleton 5⟩⟩,
   epochs_delivered_monotone 2 [2, 5] (mainTrace 2 [2, 5]) ⟨rfl, rfl⟩
     (by
       unfold EpochSourceMonotone
       rw [List.chain'_cons, List.chain'_cons]
       exact ⟨by omega, by omega, List.chain'_singleton 5⟩)⟩

/-- **C9.** In every run of `Start`, `Task.Init` is invoked exactly once,
after slot acquisition and before the epoch fetch, the neighbor-watch
establishment, the data server startup, and every invocation of
`Task.SetEpoch`, `ParentMetaReady` or `ChildMetaReady`: every valid trace
begins with slot acquisition immediately followed by the single `taskInit`
event, so every other event of the run comes after it. -/
theorem task_init_once_before_all (e0 : Nat) (es : List Nat) (t : List Ev)
    (h : ValidStart e0 es t) :
    t.take 2 = [Ev.acquireSlot, Ev.taskInit] ∧ t.count Ev.taskInit = 1 := by
  obtain ⟨hf, hg⟩ := h
  cases t with
  | nil => simp [mainTrace] at hf
  | cons a t1 =>
    have ha : isMetaEv a = false := guard_head a t1 hg
    simp only [List.filter_cons, ha, Bool.not_false, if_true] at hf
    simp only [mainTrace, List.cons_append, List.cons.injEq] at hf
    obtain ⟨rfl, hf1⟩ := hf
    have hg1 : metasGuarded false false t1 = true := by
      simpa [metasGuarded] using hg
    cases t1 with
    | nil => simp at hf1
    | cons b t2 =>
      have hb : isMetaEv b = false := guard_head b t2 hg1
      simp only [List.filter_cons, hb, Bool.not_false, if_true] at hf1
      simp only [List.cons.injEq] at hf1
      obtain ⟨rfl, hf2⟩ := hf1
      refine ⟨rfl, ?_⟩
      have hcount2 : t2.count Ev.taskInit = 0 := by
        rw [count_taskInit_filter, hf2]
        simp [List.count_cons, List.count_append, count_taskInit_map]
      simp [List.count_cons, hcount2]

/-- Witness for C9 on a concrete run that interleaves one parent-metadata
callback after the parent watches are established. -/
theorem task_init_once_before_all_witness :
    ValidStart 0 [7] ([.acquireSlot, .taskInit, .epochFetch, .heartbeatStart,
        .failureDetectStart, .watchEstablish .parent, .metaReady .parent 3 "ready",
        .watchEstablish .child, .serverStart, .dataReceiverStart,
        .setEpoch 0, .setEpoch 7] : List Ev) ∧
    (([.acquireSlot, .taskInit, .epochFetch, .heartbeatStart,
        .failureDetectStart, .watchEstablish .parent, .metaReady .parent 3 "ready",
        .watchEstablish .child, .serverStart, .dataReceiverStart,
        .setEpoch 0, .setEpoch 7] : List Ev).take 2 = [Ev.acquireSlot, Ev.taskInit] ∧
      ([.acquireSlot, .taskInit, .epochFetch, .heartbeatStart,
        .failureDetectStart, .watchEstablish .parent, .metaReady .parent 3 "ready",
        .watchEstablish .child, .serverStart, .dataReceiverStart,
        .setEpoch 0, .setEpoch 7] : List Ev).count Ev.taskInit = 1) :=
  ⟨⟨rfl, rfl⟩, task_init_once_before_all 0 [7] _ ⟨rfl, rfl⟩⟩

/-! ## store/s3.go: buffered S3 files

```go
func (s3f *S3File) Write(p []byte) (int, error) {
    return s3f.buf.Write(p)
}

func (s3f *S3File) Sync() error {
    return s3f.Put(s3f.keyPath, s3f.buf.Bytes(), "binary", s3.BucketOwnerFull)
}

func (s3s *S3Store) Open(path, name string) (File, error) {
    bkt := s3s.Bucket(path)
    ...
    b, err := bkt.Get(name)
    ...
    return &S3File{*bkt, name, bytes.NewBuffer(b)}, nil
}
```

Bytes are `Nat`s below 256; the bucket contents are an association list from
object keys to byte lists. -/

/-- Go `bytes.Buffer`: backing byte slice plus read offset; `Bytes()`
returns the unread portion, `Write` appends. -/
structure GoBuffer where
  data : List Nat
  off : Nat
  deriving DecidableEq, Repr

/-- Go `bytes.NewBuffer(b)`: a buffer whose initial contents are `b`. -/
def bytesNewBuffer (b : List Nat) : GoBuffer := ⟨b, 0⟩

/-- `bytes.Buffer.Write(p)`: append `p`, return `(len(p), nil)`. -/
def GoBuffer.writeBuf (b : GoBuffer) (p : List Nat) : GoBuffer × Nat :=
  ({ b with data := b.data ++ p }, p.length)

/-- `bytes.Buffer.Bytes()`: the unread portion of the buffer. -/
def GoBuffer.bytesOf (b : GoBuffer) : List Nat := b.data.drop b.off

/-- The contents of an S3 bucket: object keys to byte contents. -/
abbrev S3Objects := List (String × List Nat)

/-- `s3.Bucket.Put(key, v, ...)`: store `v` under `key`, overwriting. -/
def s3PutObj : S3Objects → String → List Nat → S3Objects
  | [], key, v => [(key, v)]
  | (k, w) :: rest, key, v =>
    if k = key then (key, v) :: rest else (k, w) :: s3PutObj rest key v

/-- `S3File` (store/s3.go): the object key (`keyPath`) and the in-memory
buffer; the embedded bucket is the `S3Objects` state passed to the
operations that touch it. -/
structure S3File where
  keyPath : String
  buf : GoBuffer
  deriving DecidableEq, Repr

/-- `S3File.Write` (store/s3.go:25-27): delegates to `buf.Write` — the
method body never touches the bucket. -/
def S3File.Write (f : S3File) (p : List Nat) : S3File × Nat :=
  let r := f.buf.writeBuf p
  ({ f with buf := r.1 }, r.2)

/-- `S3File.Sync` (store/s3.go:29-31): one `Put` of `buf.Bytes()` to
`keyPath`. -/
def S3File.Sync (objs : S3Objects) (f : S3File) : S3Objects :=
  s3PutObj objs f.keyPath f.buf.bytesOf

/-- `S3Store.Open` (store/s3.go:33-44): fetch the object and seed the file's
buffer with the fetched bytes. -/
def S3Store.Open (objs : S3Objects) (name : String) : Except String S3File :=
  match objs.lookup name with
  | none => .error "get failed"
  | some b => .ok ⟨name, bytesNewBuffer b⟩

/-- A sequence of `S3File.Write` calls with the bucket state threaded
through: the `Write` body touches only `buf`, so each step leaves the bucket
as it is. -/
def writeSeq : S3Objects × S3File → List (List Nat) → S3Objects × S3File
  | st, [] => st
  | (objs, f), p :: ps => writeSeq (objs, (f.Write p).1) ps

/-- `writeSeq` leaves the bucket untouched and appends all written chunks to
the buffer. -/
theorem writeSeq_eq (ps : List (List Nat)) (objs : S3Objects) (f : S3File) :
    writeSeq (objs, f) ps =
      (objs, ⟨f.keyPath, ⟨f.buf.data ++ ps.flatten, f.buf.off⟩⟩) := by
  induction ps generalizing f with
  | nil =>
    obtain ⟨kp, d, o⟩ := f
    simp [writeSeq]
  | cons p ps ih =>
    simp [writeSeq, S3File.Write, GoBuffer.writeBuf, ih]

/-- **C10.** For every sequence of `S3File.Write` calls, the written bytes
accumulate only in the in-memory buffer and none reach the object store;
`S3File.Sync` then uploads the buffer's entire accumulated contents (the
bytes fetched at `Open` followed by every written chunk, in order) to the
file's key in one put, so data written is durable only after a `Sync`
call. -/
theorem s3_write_buffers_sync_uploads (key : String) (init : List Nat)
    (ps : List (List Nat)) (objs : S3Objects) :
    (writeSeq (objs, ⟨key, bytesNewBuffer init⟩) ps).1 = objs ∧
    S3File.Sync (writeSeq (objs, ⟨key, bytesNewBuffer init⟩) ps).1
        (writeSeq (objs, ⟨key, bytesNewBuffer init⟩) ps).2 =
      s3PutObj objs key (init ++ ps.flatten) := by
  rw [writeSeq_eq]
  exact ⟨rfl, by simp [S3File.Sync, GoBuffer.bytesOf, bytesNewBuffer]⟩

end Taskgraph
